import Mathlib

/-!
Verification development for the novdan subscription/wallet ledger engine
(src/novdan_api/api/utils.py).

Shallow embedding notes:
* A Python `datetime.datetime` is embedded as a record of its calendar
  fields (year, month, day, hour, minute, second).  The code always keeps
  the tzinfo of the input instant on every datetime it constructs, so all
  comparisons and subtractions happen between datetimes of one fixed
  offset; the tzinfo field is therefore dropped from the model.  The
  microsecond field is likewise dropped: every datetime the code
  constructs has microsecond 0, and no claim depends on sub-second
  instants.
* The Python constructor `timezone.datetime(...)` validates its fields
  (1 <= year <= 9999, 1 <= month <= 12, 1 <= day <= days-in-month,
  0 <= hour <= 23, ...) and raises ValueError otherwise; it is embedded
  as `mkDatetime : ... -> Option Datetime`.
* Django model rows become records in lists kept in primary-key order;
  the query sets used by the code become list functions.  The file
  models.py of the repository is not under src/; the query set helpers
  it defines (`current`, `payed`, `not_payed`, `Subscription.objects.current`)
  are modelled from the spec and marked as such.
-/

/-- True iff `y` is a Gregorian leap year (the rule used by the Python
datetime module). -/
def isLeap (y : Nat) : Bool :=
  y % 4 == 0 && (y % 100 != 0 || y % 400 == 0)

/-- Number of days of month `m` (1..12) of year `y`, as in the Python
datetime module.  Months outside 1..12 never designate a constructible
datetime; the junk value 0 is never reached through `mkDatetime`. -/
def daysInMonth (y m : Nat) : Nat :=
  match m with
  | 1 => 31
  | 2 => if isLeap y then 29 else 28
  | 3 => 31
  | 4 => 30
  | 5 => 31
  | 6 => 30
  | 7 => 31
  | 8 => 31
  | 9 => 30
  | 10 => 31
  | 11 => 30
  | 12 => 31
  | _ => 0

/-- A Python `datetime.datetime` value, restricted to the fields the code
uses (tzinfo and microsecond dropped, see the header comment). -/
structure Datetime where
  year : Nat
  month : Nat
  day : Nat
  hour : Nat
  minute : Nat
  second : Nat
deriving DecidableEq, Repr

/-- Field validity enforced by the Python datetime constructor. -/
def Datetime.validB (d : Datetime) : Bool :=
  decide (1 ≤ d.year) && decide (d.year ≤ 9999) &&
  decide (1 ≤ d.month) && decide (d.month ≤ 12) &&
  decide (1 ≤ d.day) && decide (d.day ≤ daysInMonth d.year d.month) &&
  decide (d.hour ≤ 23) && decide (d.minute ≤ 59) && decide (d.second ≤ 59)

/-- `timezone.datetime(year, month, day, hour, minute, second)`: returns the
datetime when the fields are in range and raises ValueError (here: `none`)
otherwise. -/
def mkDatetime (y mo d h mi s : Nat) : Option Datetime :=
  let dt : Datetime := ⟨y, mo, d, h, mi, s⟩
  if dt.validB then some dt else none

/-- Comparison of two datetimes carrying the same offset: the Python
comparison of the underlying instants, which for a common offset is the
field-lexicographic order. -/
def dtLe (a b : Datetime) : Bool :=
  Nat.blt a.year b.year || (a.year == b.year &&
    (Nat.blt a.month b.month || (a.month == b.month &&
      (Nat.blt a.day b.day || (a.day == b.day &&
        (Nat.blt a.hour b.hour || (a.hour == b.hour &&
          (Nat.blt a.minute b.minute || (a.minute == b.minute &&
            Nat.ble a.second b.second)))))))))

/-- Strict version of `dtLe`. -/
def dtLt (a b : Datetime) : Bool := !(dtLe b a)

/-- Subtraction of `timedelta(seconds=1)` from a datetime, written as the
borrow chain the instant arithmetic amounts to on valid datetimes. -/
def minusOneSecond (d : Datetime) : Datetime :=
  if d.second > 0 then { d with second := d.second - 1 }
  else if d.minute > 0 then { d with minute := d.minute - 1, second := 59 }
  else if d.hour > 0 then { d with hour := d.hour - 1, minute := 59, second := 59 }
  else if d.day > 1 then { d with day := d.day - 1, hour := 23, minute := 59, second := 59 }
  else if d.month > 1 then ⟨d.year, d.month - 1, daysInMonth d.year (d.month - 1), 23, 59, 59⟩
  else ⟨d.year - 1, 12, 31, 23, 59, 59⟩

/-- `get_start_of_month(datetime)` of utils.py:
`timezone.datetime(datetime.year, datetime.month, 1, tzinfo=...)`. -/
def get_start_of_month (t : Datetime) : Option Datetime :=
  mkDatetime t.year t.month 1 0 0 0

/-- `get_end_of_month(datetime)` of utils.py:
`timezone.datetime(datetime.year, datetime.month + 1, 1, tzinfo=...) -
timedelta(seconds=1)`.  Note the constructor receives month `t.month + 1`
and raises ValueError (here: `none`) when `t.month = 12`. -/
def get_end_of_month (t : Datetime) : Option Datetime :=
  (mkDatetime t.year (t.month + 1) 1 0 0 0).map minusOneSecond

/-- Days from year 1 to the start of year `y` (proleptic Gregorian), as in
the Python `date.toordinal` arithmetic. -/
def daysBeforeYear (y : Nat) : Nat :=
  (y - 1) * 365 + (y - 1) / 4 + (y - 1) / 400 - (y - 1) / 100

/-- Days from the start of year `y` to the start of its month `m`. -/
def daysBeforeMonth (y : Nat) : Nat → Nat
  | 0 => 0
  | m + 1 => daysBeforeMonth y m + daysInMonth y m

/-- Seconds elapsed from the instant `0001-01-01 00:00:00` to `d`; the
instant value the Python datetime subtraction computes with. -/
def toSeconds (d : Datetime) : Nat :=
  (daysBeforeYear d.year + daysBeforeMonth d.year (d.month - 1) + (d.day - 1)) * 86400 +
    d.hour * 3600 + d.minute * 60 + d.second

/-- `_get_number_of_seconds_in_month(time)` of utils.py:
`int((get_end_of_month(time) - get_start_of_month(time)).total_seconds())`.
The subtraction of instants becomes a difference of `toSeconds` values;
the result is `none` when `get_end_of_month` raises. -/
def _get_number_of_seconds_in_month (time : Datetime) : Option Int :=
  match get_end_of_month time, get_start_of_month time with
  | some en, some st => some ((toSeconds en : Int) - (toSeconds st : Int))
  | _, _ => none

/-- A row of the Wallet model (migration 0001): uuid primary key, owning
user, `amount` a signed 64-bit integer defaulting to 0.  Primary keys are
embedded as naturals. -/
structure Wallet where
  id : Nat
  userId : Nat
  amount : Int
deriving DecidableEq, Repr

/-- A row of the Subscription model: primary key and owning user. -/
structure Subscription where
  id : Nat
  userId : Nat
deriving DecidableEq, Repr

/-- A row of the SubscriptionTimeRange model as used by utils.py:
`starts_at`, `ends_at`, nullable `payed_at`, `payment_token`,
`canceled_at`, and the owning subscription. -/
structure TimeRange where
  id : Nat
  subscriptionId : Nat
  startsAt : Datetime
  endsAt : Datetime
  payedAt : Option Datetime
  paymentToken : Option String
  canceledAt : Option Datetime
deriving DecidableEq, Repr

/-- A row of the Transaction model: amount and the two wallet references.
The `created_at` auto-now timestamp is dropped: no claim reads it. -/
structure Transaction where
  fromWalletId : Nat
  toWalletId : Nat
  amount : Int
deriving DecidableEq, Repr

/-- The database state the operations of utils.py act on.  Row lists are
kept in primary-key order (Django default ordering used by `first()`),
and fresh primary keys are drawn from the counters. -/
structure State where
  wallets : List Wallet
  subscriptions : List Subscription
  timeRanges : List TimeRange
  transactions : List Transaction
  nextSubId : Nat
  nextRangeId : Nat
deriving DecidableEq, Repr

/-- The ways an operation of utils.py terminates abnormally: the explicit
assertion messages, the Django `DoesNotExist` and `MultipleObjectsReturned`
exceptions of `get` / `get_or_create`, and the ValueError raised by an
out-of-range datetime construction.  Every abnormal exit happens before a
commit (the writes sit inside `transaction.atomic()` or after no write at
all), so a failing call leaves the database unchanged. -/
inductive ApiError where
  | invalidPayment
  | alreadyPayed
  | notActive
  | doesNotExist
  | multipleObjects
  | insufficientBalance
  | alreadyRolledOver
  | valueError
deriving DecidableEq, Repr

deriving instance DecidableEq for Except

/-- Modelled from the spec: the query set helper `current(time)` defined in
models.py (models.py is not under src/).  Spec 4.2 `periodCovering(T)`:
the period where `start <= T <= end`. -/
def coversB (r : TimeRange) (t : Datetime) : Bool :=
  dtLe r.startsAt t && dtLe t r.endsAt

/-- Modelled from the spec: the query set helper `payed()` of models.py
(not under src/).  Spec 4.2: a period counts as paid iff `paid_at` is
non-null. -/
def TimeRange.isPayedB (r : TimeRange) : Bool :=
  r.payedAt.isSome

/-- Django `Wallet.objects.get(user=user)`: succeeds iff exactly one row
matches, raising DoesNotExist or MultipleObjectsReturned otherwise. -/
def getUniqueWallet (ws : List Wallet) (uid : Nat) : Option Wallet :=
  match ws.filter (fun w => w.userId == uid) with
  | [w] => some w
  | _ => none

/-- The single wallet row with primary key `i` (primary keys are unique in
the database; a list holding duplicates yields `none`). -/
def getWalletById (ws : List Wallet) (i : Nat) : Option Wallet :=
  match ws.filter (fun w => w.id == i) with
  | [w] => some w
  | _ => none

/-- Modelled from the spec: `Subscription.objects.current(time)` of
models.py (not under src/), restricted to one user.  Spec 4.2-4.3:
`activeSubscriptions(T)` returns every user whose subscription has a paid
period covering `T`. -/
def userHasCurrentSubscription (subs : List Subscription) (rs : List TimeRange)
    (uid : Nat) (t : Datetime) : Bool :=
  subs.any (fun sub => sub.userId == uid &&
    rs.any (fun r => r.subscriptionId == sub.id && coversB r t && r.payedAt.isSome))

/-- `transfer_tokens(from_wallet, to_wallet, amount)` of utils.py.  The two
wallet arguments are passed by primary key; ids not denoting exactly one
row cannot arise from the Python call (the caller holds the two wallet
objects) and map to `doesNotExist`.  The only check is the assertion
`from_wallet.amount >= amount`; on success the two F-expression saves
apply the two relative updates to the rows in order (first the sender,
then the receiver) and one Transaction row is inserted. -/
def transfer_tokens (s : State) (fromId toId : Nat) (amount : Int) :
    Except ApiError State :=
  match getWalletById s.wallets fromId, getWalletById s.wallets toId with
  | some fw, some _ =>
    if fw.amount ≥ amount then
      let afterFrom := s.wallets.map (fun w =>
        if w.id == fromId then { w with amount := w.amount - amount } else w)
      let afterTo := afterFrom.map (fun w =>
        if w.id == toId then { w with amount := w.amount + amount } else w)
      .ok { s with
        wallets := afterTo,
        transactions := s.transactions ++ [⟨fromId, toId, amount⟩] }
    else
      .error .insufficientBalance
  | _, _ => .error .doesNotExist

/-- `generate_tokens_for_month(time)` of utils.py: computes the seconds in
the month of `time` and overwrites the amount of every wallet whose user
has a current (paid, covering) subscription with that value.  When the
seconds computation raises (December, claim C1) nothing is written. -/
def generate_tokens_for_month (s : State) (time : Datetime) :
    Except ApiError State :=
  match _get_number_of_seconds_in_month time with
  | none => .error .valueError
  | some seconds =>
    .ok { s with wallets := s.wallets.map (fun w =>
      if userHasCurrentSubscription s.subscriptions s.timeRanges w.userId time
      then { w with amount := seconds } else w) }

/-- `generate_tokens_for_month_for_wallet(wallet, time)` of utils.py: sets
the amount of the given wallet row to the seconds in the month of `time`
and saves it; the ValueError of the seconds computation propagates. -/
def generate_tokens_for_month_for_wallet (s : State) (walletId : Nat) (time : Datetime) :
    Except ApiError State :=
  match _get_number_of_seconds_in_month time with
  | none => .error .valueError
  | some seconds =>
    .ok { s with wallets := s.wallets.map (fun x : Wallet =>
      if x.id == walletId then { x with amount := seconds } else x) }

/-- `_create_subscription_time_range(time, subscription_id)` of utils.py:
a fresh unpaid range from `get_start_of_month(time)` to
`get_end_of_month(time)`; `none` when the end-of-month construction
raises. -/
def _create_subscription_time_range (time : Datetime) (subscriptionId nextId : Nat) :
    Option TimeRange :=
  match get_start_of_month time, get_end_of_month time with
  | some st, some en => some ⟨nextId, subscriptionId, st, en, none, none, none⟩
  | _, _ => none

/-- The last time range of subscription `i` in the sense of
`order_by('subscription', '-ends_at').distinct('subscription')`: the range
of `i` with the greatest `ends_at`.  The database leaves ties unspecified;
the model keeps the first row (primary-key order) among the maxima. -/
def lastRangeStep (acc : Option TimeRange) (r : TimeRange) : Option TimeRange :=
  match acc with
  | none => some r
  | some best => if dtLt best.endsAt r.endsAt then some r else some best

/-- See the doc comment above `lastRangeStep`. -/
def lastRangeFor (rs : List TimeRange) (i : Nat) : Option TimeRange :=
  (rs.filter (fun r => r.subscriptionId == i)).foldl lastRangeStep none

/-- First occurrence of each element, in order of first appearance. -/
def dedupFirst : List Nat → List Nat
  | [] => []
  | x :: xs => x :: (dedupFirst xs).filter (fun y => y ≠ x)

/-- The subscription ids the rollover loop of
`generate_subscription_time_ranges_for_month` iterates over: the ids whose
last time range is not canceled. -/
def rolloverIds (rs : List TimeRange) : List Nat :=
  (dedupFirst (rs.map (fun r => r.subscriptionId))).filter (fun i =>
    match lastRangeFor rs i with
    | some r => r.canceledAt.isNone
    | none => false)

/-- The `for subscription_id in non_canceled_subscription_ids` loop body:
one fresh range per id, with primary keys drawn in sequence. -/
def buildRanges (nextId : Nat) (st en : Datetime) : List Nat → List TimeRange
  | [] => []
  | i :: is => ⟨nextId, i, st, en, none, none, none⟩ :: buildRanges (nextId + 1) st en is

/-- `generate_subscription_time_ranges_for_month(time)` of utils.py: asserts
that no range covers `time`, then creates one unpaid range for the month of
`time` for every subscription whose last range is not canceled.  The loop
is not wrapped in an atomic block, but the only failure (the ValueError of
the datetime construction, December) happens on the first iteration before
any row is written, so a failing call writes nothing; with no qualifying
subscription the empty loop succeeds even in December. -/
def generate_subscription_time_ranges_for_month (s : State) (time : Datetime) :
    Except ApiError State :=
  if s.timeRanges.any (fun r => coversB r time) then
    .error .alreadyRolledOver
  else
    match rolloverIds s.timeRanges with
    | [] => .ok s
    | ids =>
      match get_start_of_month time, get_end_of_month time with
      | some st, some en =>
        .ok { s with
          timeRanges := s.timeRanges ++ buildRanges s.nextRangeId st en ids,
          nextRangeId := s.nextRangeId + ids.length }
      | _, _ => .error .valueError

/-- Django `Subscription.objects.get_or_create(user=user)`: returns the id
of the single matching subscription, or inserts a fresh row; raises
MultipleObjectsReturned when several rows match. -/
def getOrCreateSubscription (s : State) (userId : Nat) :
    Except ApiError (Nat × State) :=
  match s.subscriptions.filter (fun sub => sub.userId == userId) with
  | [] => .ok (s.nextSubId, { s with
      subscriptions := s.subscriptions ++ [⟨s.nextSubId, userId⟩],
      nextSubId := s.nextSubId + 1 })
  | [sub] => .ok (sub.id, s)
  | _ => .error .multipleObjects

/-- The two field assignments and the `save()` of `activate_subscription`:
set `payed_at = time` and `payment_token` on the range with id `trId`. -/
def markRangePayed (s : State) (trId : Nat) (time : Datetime) (tok : String) : State :=
  { s with timeRanges := s.timeRanges.map (fun r : TimeRange =>
      if r.id == trId
      then { r with payedAt := some time, paymentToken := some tok }
      else r) }

/-- The tail of `activate_subscription` once the time range to pay is
determined: mark it paid and fill the wallet of the user
(`generate_tokens_for_month_for_wallet(Wallet.objects.get(user=user), time)`,
where `get` raises unless exactly one wallet row matches). -/
def activateFinish (s2 : State) (trId userId : Nat) (paymentToken : String)
    (time : Datetime) : Except ApiError State :=
  let s3 : State := markRangePayed s2 trId time paymentToken
  match getUniqueWallet s3.wallets userId with
  | none => .error .doesNotExist
  | some w => generate_tokens_for_month_for_wallet s3 w.id time

/-- `activate_subscription(user, payment_token)` of utils.py.  The ambient
`timezone.now()` becomes the explicit argument `time`.  Steps: assert the
token non-empty; get-or-create the subscription of the user; assert no
paid range covers `time`; reuse the first unpaid covering range or create
a fresh one; mark it paid and fill the wallet (`activateFinish`).  All
failures happen inside `transaction.atomic()` or before any write, so
they leave the database unchanged. -/
def activate_subscription (s : State) (userId : Nat) (paymentToken : String)
    (time : Datetime) : Except ApiError State :=
  if paymentToken == "" then .error .invalidPayment
  else
    match getOrCreateSubscription s userId with
    | .error e => .error e
    | .ok (subId, s1) =>
      if s1.timeRanges.any (fun r =>
          r.subscriptionId == subId && coversB r time && r.payedAt.isSome) then
        .error .alreadyPayed
      else
        match s1.timeRanges.find? (fun r =>
            r.subscriptionId == subId && coversB r time && r.payedAt.isNone) with
        | some tr => activateFinish s1 tr.id userId paymentToken time
        | none =>
          match _create_subscription_time_range time subId s1.nextRangeId with
          | some tr =>
            activateFinish
              { s1 with
                timeRanges := s1.timeRanges ++ [tr],
                nextRangeId := s1.nextRangeId + 1 }
              tr.id userId paymentToken time
          | none => .error .valueError

/-- `cancel_subscription(user)` of utils.py, with the ambient
`timezone.now()` as the explicit argument `time`.  Django
`Subscription.objects.get(user=user)` raises DoesNotExist or
MultipleObjectsReturned unless exactly one row matches; then the assertion
requires a paid range covering `time` and `canceled_at` is set on the
first such range. -/
def cancel_subscription (s : State) (userId : Nat) (time : Datetime) :
    Except ApiError State :=
  match s.subscriptions.filter (fun sub => sub.userId == userId) with
  | [] => .error .doesNotExist
  | _ :: _ :: _ => .error .multipleObjects
  | [sub] =>
    match s.timeRanges.find? (fun r =>
        r.subscriptionId == sub.id && coversB r time && r.payedAt.isSome) with
    | none => .error .notActive
    | some tr =>
      .ok { s with timeRanges := s.timeRanges.map (fun r =>
        if r.id == tr.id then { r with canceledAt := some time } else r) }

/-- The operations of the engine, with every ambient clock read made an
explicit datetime argument. -/
inductive Op where
  | activate : Nat → String → Datetime → Op
  | cancel : Nat → Datetime → Op
  | rollover : Datetime → Op
  | issue : Datetime → Op
  | transfer : Nat → Nat → Int → Op
deriving DecidableEq, Repr

/-- Dispatch an operation. -/
def applyOp (s : State) : Op → Except ApiError State
  | .activate u tok t => activate_subscription s u tok t
  | .cancel u t => cancel_subscription s u t
  | .rollover t => generate_subscription_time_ranges_for_month s t
  | .issue t => generate_tokens_for_month s t
  | .transfer f t a => transfer_tokens s f t a

/-- Run an operation against the store: a failing call rolls back (or never
started) and leaves the state unchanged. -/
def runOp (s : State) (op : Op) : State :=
  match applyOp s op with
  | .ok s' => s'
  | .error _ => s

/-- Run a sequence of operations. -/
def runOps (s : State) : List Op → State
  | [] => s
  | op :: ops => runOps (runOp s op) ops

/-- Every datetime an operation receives comes from `timezone.now()` or a
database column in the Python code, hence carries in-range fields; this
predicate restricts the model to such calls. -/
def Op.timeValidB : Op → Bool
  | .activate _ _ t => t.validB
  | .cancel _ t => t.validB
  | .rollover t => t.validB
  | .issue t => t.validB
  | .transfer _ _ _ => true

/-- A range as created by `_create_subscription_time_range`: it spans
exactly the month of its start, from the first second of day 1 to the
last second of the last day, for a constructible month (the creation
succeeds only for months 1..11, claim C1). -/
def isMonthRangeB (r : TimeRange) : Bool :=
  r.startsAt.day == 1 && r.startsAt.hour == 0 && r.startsAt.minute == 0 &&
  r.startsAt.second == 0 &&
  decide (1 ≤ r.startsAt.year) && decide (r.startsAt.year ≤ 9999) &&
  decide (1 ≤ r.startsAt.month) && decide (r.startsAt.month ≤ 11) &&
  r.endsAt == ⟨r.startsAt.year, r.startsAt.month,
    daysInMonth r.startsAt.year r.startsAt.month, 23, 59, 59⟩

/-- Two ranges of one subscription for one calendar month. -/
def sameSubSameMonth (r r' : TimeRange) : Bool :=
  r.subscriptionId == r'.subscriptionId &&
  r.startsAt.year == r'.startsAt.year && r.startsAt.month == r'.startsAt.month

/-- No two ranges of the list belong to one subscription and one month. -/
def noDupMonthsB : List TimeRange → Bool
  | [] => true
  | r :: rs => rs.all (fun r' => !(sameSubSameMonth r r')) && noDupMonthsB rs

/-- The inductive invariant maintained by the operations: every range is
month-aligned and no subscription holds two ranges for one month.  The
empty state satisfies it. -/
def rangesOkB (rs : List TimeRange) : Bool :=
  rs.all isMonthRangeB && noDupMonthsB rs

/-- Two ranges of one subscription whose `[starts_at, ends_at]` ranges
overlap, that is, share at least one instant. -/
def sameSubOverlap (r r' : TimeRange) : Bool :=
  r.subscriptionId == r'.subscriptionId &&
  dtLe r.startsAt r'.endsAt && dtLe r'.startsAt r.endsAt

/-- No subscription holds two overlapping ranges. -/
def overlapFreeB : List TimeRange → Bool
  | [] => true
  | r :: rs => rs.all (fun r' => !(sameSubOverlap r r')) && overlapFreeB rs

/-- Whether a call returned normally. -/
def isOkB : Except ApiError State → Bool
  | .ok _ => true
  | .error _ => false

/-- A concrete two-wallet state used by closed evaluations: wallet 0 of
user 1 holds 100 tokens, wallet 1 of user 2 holds 0 tokens. -/
def twoWalletState : State :=
  { wallets := [⟨0, 1, 100⟩, ⟨1, 2, 0⟩],
    subscriptions := [], timeRanges := [], transactions := [],
    nextSubId := 0, nextRangeId := 0 }

/-- A concrete one-user state: user 1 owns wallet 0 with balance 0 and has
no subscription yet. -/
def oneUserState : State :=
  { wallets := [⟨0, 1, 0⟩],
    subscriptions := [], timeRanges := [], transactions := [],
    nextSubId := 0, nextRangeId := 0 }

/-- The instant 2024-02-10 00:00:00. -/
def feb10 : Datetime := ⟨2024, 2, 10, 0, 0, 0⟩

/-- The state produced by a successful `activate_subscription` of user 1
on `oneUserState` at `feb10`: one February period, paid at `feb10` with
token tok, and the wallet filled with the 2505599 seconds of February
2024 (leap year). -/
def activateDemoResult : State :=
  { wallets := [⟨0, 1, 2505599⟩],
    subscriptions := [⟨0, 1⟩],
    timeRanges := [⟨0, 0, ⟨2024, 2, 1, 0, 0, 0⟩, ⟨2024, 2, 29, 23, 59, 59⟩,
      some feb10, some "tok", none⟩],
    transactions := [],
    nextSubId := 1, nextRangeId := 1 }

/-- A state where user 1 holds wallet 0 (balance 5) and a subscription
with a paid, uncanceled January 2024 period. -/
def paidJanState : State :=
  { wallets := [⟨0, 1, 5⟩],
    subscriptions := [⟨0, 1⟩],
    timeRanges := [⟨0, 0, ⟨2024, 1, 1, 0, 0, 0⟩, ⟨2024, 1, 31, 23, 59, 59⟩,
      some ⟨2024, 1, 10, 0, 0, 0⟩, some "tok", none⟩],
    transactions := [], nextSubId := 1, nextRangeId := 1 }

/-- The instant 2024-01-20 00:00:00. -/
def jan20 : Datetime := ⟨2024, 1, 20, 0, 0, 0⟩

/-- The instant 2021-12-15 00:00:00 (a December instant). -/
def dec15 : Datetime := ⟨2021, 12, 15, 0, 0, 0⟩

/-- The instant 2021-12-01 00:00:00 (a December instant). -/
def dec1 : Datetime := ⟨2021, 12, 1, 0, 0, 0⟩

/-- The instant 2024-02-01 00:00:00. -/
def feb1 : Datetime := ⟨2024, 2, 1, 0, 0, 0⟩

/-- A state with a paid (hand-seeded) December 2021 period for user 1,
whose wallet is empty. -/
def decemberPaidState : State :=
  { wallets := [⟨0, 1, 0⟩],
    subscriptions := [⟨0, 1⟩],
    timeRanges := [⟨0, 0, ⟨2021, 12, 1, 0, 0, 0⟩, ⟨2021, 12, 31, 23, 59, 59⟩,
      some ⟨2021, 12, 1, 0, 0, 0⟩, some "tok", none⟩],
    transactions := [], nextSubId := 1, nextRangeId := 1 }

/-- The rollover scenario of the spec: subscription 0 (user 1) paid and
not canceled in January 2024; subscription 1 (user 2) paid and canceled
in January 2024. -/
def rolloverDemoState : State :=
  { wallets := [],
    subscriptions := [⟨0, 1⟩, ⟨1, 2⟩],
    timeRanges := [
      ⟨0, 0, ⟨2024, 1, 1, 0, 0, 0⟩, ⟨2024, 1, 31, 23, 59, 59⟩,
        some ⟨2024, 1, 5, 0, 0, 0⟩, some "tok", none⟩,
      ⟨1, 1, ⟨2024, 1, 1, 0, 0, 0⟩, ⟨2024, 1, 31, 23, 59, 59⟩,
        some ⟨2024, 1, 6, 0, 0, 0⟩, some "tok", some ⟨2024, 1, 20, 0, 0, 0⟩⟩],
    transactions := [], nextSubId := 2, nextRangeId := 2 }

/-- A state with a paid, uncanceled November 2021 period for
subscription 0. -/
def novemberState : State :=
  { wallets := [],
    subscriptions := [⟨0, 1⟩],
    timeRanges := [⟨0, 0, ⟨2021, 11, 1, 0, 0, 0⟩, ⟨2021, 11, 30, 23, 59, 59⟩,
      some ⟨2021, 11, 2, 0, 0, 0⟩, some "tok", none⟩],
    transactions := [], nextSubId := 1, nextRangeId := 1 }

/-- The state produced by the issuance job on `paidJanState` at `jan20`:
the wallet of user 1 is set to the 2678399 seconds of January 2024. -/
def issueDemoResult : State :=
  { wallets := [⟨0, 1, 2678399⟩],
    subscriptions := [⟨0, 1⟩],
    timeRanges := [⟨0, 0, ⟨2024, 1, 1, 0, 0, 0⟩, ⟨2024, 1, 31, 23, 59, 59⟩,
      some ⟨2024, 1, 10, 0, 0, 0⟩, some "tok", none⟩],
    transactions := [], nextSubId := 1, nextRangeId := 1 }

/-- An overlap-free but not month-aligned state: user 1 owns wallet 0 and
a subscription with a single hand-seeded unpaid mid-month range
2024-01-10 .. 2024-01-20. -/
def midJanState : State :=
  { wallets := [⟨0, 1, 0⟩],
    subscriptions := [⟨0, 1⟩],
    timeRanges := [⟨0, 0, ⟨2024, 1, 10, 0, 0, 0⟩, ⟨2024, 1, 20, 0, 0, 0⟩,
      none, none, none⟩],
    transactions := [], nextSubId := 1, nextRangeId := 1 }

/-- The instant 2024-01-25 00:00:00. -/
def jan25 : Datetime := ⟨2024, 1, 25, 0, 0, 0⟩

/-- Claim C1: the claim states that `monthEnd(t)` returns
`monthStart(t + 1 month) - 1 second`, correctly rolling a December instant
over to January of the next year, with no error case for any input.  The
code instead constructs `datetime(year, month + 1, 1)`, which raises
ValueError for every December instant, so `get_end_of_month` and
`_get_number_of_seconds_in_month` crash in December; for a November
instant the computation works and yields the last second of November. -/
theorem c1_get_end_of_month_december_raises :
    get_end_of_month ⟨2021, 12, 15, 0, 0, 0⟩ = none ∧
    _get_number_of_seconds_in_month ⟨2021, 12, 15, 0, 0, 0⟩ = none ∧
    get_end_of_month ⟨2021, 11, 15, 0, 0, 0⟩ = some ⟨2021, 11, 30, 23, 59, 59⟩ ∧
    _get_number_of_seconds_in_month ⟨2021, 11, 15, 0, 0, 0⟩ = some (30 * 86400 - 1) := by
  decide

/-- The two sequential relative updates of `transfer_tokens` amount to one
pointwise update when the two wallet ids differ. -/
theorem transfer_map_map (l : List Wallet) (f t : Nat) (a : Int) (hne : f ≠ t) :
    ((l.map (fun w : Wallet => if w.id == f then { w with amount := w.amount - a } else w)).map
        (fun w : Wallet => if w.id == t then { w with amount := w.amount + a } else w)) =
      l.map (fun w : Wallet =>
        if w.id = f then { w with amount := w.amount - a }
        else if w.id = t then { w with amount := w.amount + a }
        else w) := by
  rw [List.map_map]
  apply List.map_congr_left
  intro w _
  by_cases hf : w.id = f
  · have h1 : (w.id == f) = true := beq_iff_eq.mpr hf
    have h2 : (({ w with amount := w.amount - a } : Wallet).id == t) = false := by
      simp only [beq_eq_false_iff_ne, ne_eq]
      intro hc
      exact hne (hf ▸ hc)
    simp [Function.comp, h1, h2, hf]
    intro hc
    exact absurd hc hne
  · have h1 : (w.id == f) = false := by simp [hf]
    by_cases ht : w.id = t
    · have h2 : (w.id == t) = true := beq_iff_eq.mpr ht
      have htf : ¬ t = f := fun hc => hne hc.symm
      simp [Function.comp, h1, h2, hf, ht, htf]
    · have h2 : (w.id == t) = false := by simp [ht]
      simp [Function.comp, h1, h2, hf, ht]

/-- Claim C2 (amended): `transfer_tokens` succeeds exactly when the sender
balance is at least `amount` — for every integer amount, zero and negative
included — and fails with the insufficient-balance assertion otherwise;
the code contains no positivity check on `amount`. -/
theorem c2_transfer_success_iff (s : State) (fromId toId : Nat) (amount : Int)
    (fw tw : Wallet) (hf : getWalletById s.wallets fromId = some fw)
    (ht : getWalletById s.wallets toId = some tw) :
    (isOkB (transfer_tokens s fromId toId amount) = true ↔ amount ≤ fw.amount) ∧
    (fw.amount < amount →
      transfer_tokens s fromId toId amount = .error .insufficientBalance) := by
  unfold transfer_tokens
  rw [hf, ht]
  by_cases h : amount ≤ fw.amount
  · have hge : fw.amount ≥ amount := h
    constructor
    · simp [hge, isOkB, h]
    · intro hlow
      omega
  · have hge : ¬ fw.amount ≥ amount := h
    constructor
    · simp [hge, isOkB, h]
    · intro hlow
      simp [hge]

/-- Witness for claim C2: in the concrete two-wallet state, the transfer of
40 tokens from wallet 0 (balance 100) succeeds. -/
theorem c2_transfer_success_iff_witness :
    (isOkB (transfer_tokens twoWalletState 0 1 40) = true ↔ (40 : Int) ≤ 100) ∧
    ((100 : Int) < 40 →
      transfer_tokens twoWalletState 0 1 40 = .error .insufficientBalance) :=
  c2_transfer_success_iff twoWalletState 0 1 40 ⟨0, 1, 100⟩ ⟨1, 2, 0⟩
    (by decide) (by decide)

/-- Counterexample for claim C2 as stated: the claim says the transfer
succeeds only when `amount > 0`, yet a transfer of amount 0 succeeds (the
code never checks positivity). -/
theorem c2_counterexample :
    isOkB (transfer_tokens twoWalletState 0 1 0) = true ∧ ¬ ((0 : Int) > 0) := by
  decide

/-- Claim C5: a successful transfer between two distinct wallets decreases
the sender balance by `amount`, increases the receiver balance by `amount`,
leaves every other wallet (and the subscription data) unchanged, and
appends exactly one Transaction recording the amount and both wallet
references. -/
theorem c5_transfer_distinct_effect (s : State) (fromId toId : Nat) (amount : Int)
    (s' : State) (hne : fromId ≠ toId)
    (h : transfer_tokens s fromId toId amount = .ok s') :
    s'.wallets = s.wallets.map (fun w : Wallet =>
      if w.id = fromId then { w with amount := w.amount - amount }
      else if w.id = toId then { w with amount := w.amount + amount }
      else w) ∧
    s'.transactions = s.transactions ++ [⟨fromId, toId, amount⟩] ∧
    s'.subscriptions = s.subscriptions ∧ s'.timeRanges = s.timeRanges := by
  cases hf : getWalletById s.wallets fromId with
  | none =>
    simp only [transfer_tokens, hf] at h
    exact (Except.noConfusion h)
  | some fw =>
    cases ht : getWalletById s.wallets toId with
    | none =>
      simp only [transfer_tokens, hf, ht] at h
      exact (Except.noConfusion h)
    | some tw =>
      simp only [transfer_tokens, hf, ht] at h
      by_cases hge : fw.amount ≥ amount
      · rw [if_pos hge] at h
        injection h with h2
        subst h2
        exact ⟨transfer_map_map s.wallets fromId toId amount hne, rfl, rfl, rfl⟩
      · rw [if_neg hge] at h
        exact (Except.noConfusion h)

/-- Witness for claim C5: the concrete transfer of 40 tokens from wallet 0
to wallet 1 yields balances 60 and 40. -/
theorem c5_transfer_distinct_effect_witness :
    (State.mk [⟨0, 1, 60⟩, ⟨1, 2, 40⟩] [] [] [⟨0, 1, 40⟩] 0 0).wallets =
      twoWalletState.wallets.map (fun w : Wallet =>
        if w.id = 0 then { w with amount := w.amount - 40 }
        else if w.id = 1 then { w with amount := w.amount + 40 }
        else w) :=
  (c5_transfer_distinct_effect twoWalletState 0 1 40
    (State.mk [⟨0, 1, 60⟩, ⟨1, 2, 40⟩] [] [] [⟨0, 1, 40⟩] 0 0)
    (by decide) (by rfl)).1

/-- Claim C6: a transfer whose amount exceeds the sender balance fails with
the insufficient-balance assertion, and the failing call leaves the store
exactly as it was (no balance change, no Transaction row). -/
theorem c6_transfer_failure_unchanged (s : State) (fromId toId : Nat) (amount : Int)
    (fw tw : Wallet) (hf : getWalletById s.wallets fromId = some fw)
    (ht : getWalletById s.wallets toId = some tw) (hlow : fw.amount < amount) :
    transfer_tokens s fromId toId amount = .error .insufficientBalance ∧
    runOp s (.transfer fromId toId amount) = s := by
  have hge : ¬ fw.amount ≥ amount := by omega
  have h1 : transfer_tokens s fromId toId amount = .error .insufficientBalance := by
    simp only [transfer_tokens, hf, ht]
    rw [if_neg hge]
  exact ⟨h1, by simp [runOp, applyOp, h1]⟩

/-- Witness for claim C6: transferring 150 from wallet 0 (balance 100)
fails and leaves the state unchanged. -/
theorem c6_transfer_failure_unchanged_witness :
    transfer_tokens twoWalletState 0 1 150 = .error .insufficientBalance ∧
    runOp twoWalletState (.transfer 0 1 150) = twoWalletState :=
  c6_transfer_failure_unchanged twoWalletState 0 1 150 ⟨0, 1, 100⟩ ⟨1, 2, 0⟩
    (by decide) (by decide) (by decide)

/-- Claim C10: the code never rejects a self-transfer: when the wallet
balance is at least `amount`, `transfer_tokens(w, w, amount)` succeeds, the
relative decrement and increment cancel so every balance is unchanged, and
one Transaction whose sender equals its receiver is still appended. -/
theorem c10_transfer_self (s : State) (wid : Nat) (amount : Int) (w : Wallet)
    (hw : getWalletById s.wallets wid = some w) (hbal : amount ≤ w.amount) :
    transfer_tokens s wid wid amount =
      .ok { s with transactions := s.transactions ++ [⟨wid, wid, amount⟩] } := by
  have hge : w.amount ≥ amount := hbal
  have hmap : ((s.wallets.map (fun x : Wallet =>
        if x.id == wid then { x with amount := x.amount - amount } else x)).map
          (fun x : Wallet =>
            if x.id == wid then { x with amount := x.amount + amount } else x)) =
      s.wallets := by
    rw [List.map_map]
    have hpt : ∀ x ∈ s.wallets,
        ((fun x : Wallet =>
            if x.id == wid then { x with amount := x.amount + amount } else x) ∘
          (fun x : Wallet =>
            if x.id == wid then { x with amount := x.amount - amount } else x)) x = x := by
      intro x _
      by_cases hx : x.id = wid
      · have h1 : (x.id == wid) = true := beq_iff_eq.mpr hx
        simp [Function.comp, h1]
      · have h1 : (x.id == wid) = false := by simp [hx]
        simp [Function.comp, h1]
    rw [List.map_congr_left hpt]
    simp
  simp only [transfer_tokens, hw]
  rw [if_pos hge, hmap]

/-- Witness for claim C10: a self-transfer of 30 tokens on wallet 0 leaves
its balance at 100 and appends a self-referencing Transaction. -/
theorem c10_transfer_self_witness :
    transfer_tokens twoWalletState 0 0 30 =
      .ok { twoWalletState with
        transactions := twoWalletState.transactions ++ [⟨0, 0, 30⟩] } :=
  c10_transfer_self twoWalletState 0 30 ⟨0, 1, 100⟩ (by decide) (by decide)

/-- Unfolding of the datetime comparison into arithmetic. -/
theorem dtLe_iff (a b : Datetime) : dtLe a b = true ↔
    (a.year < b.year ∨ (a.year = b.year ∧ (a.month < b.month ∨ (a.month = b.month ∧
      (a.day < b.day ∨ (a.day = b.day ∧ (a.hour < b.hour ∨ (a.hour = b.hour ∧
        (a.minute < b.minute ∨ (a.minute = b.minute ∧
          a.second ≤ b.second)))))))))) := by
  unfold dtLe
  simp [Nat.blt_eq, Nat.ble_eq, Bool.or_eq_true, Bool.and_eq_true, beq_iff_eq]

/-- Unfolding of the constructor validity check. -/
theorem validB_iff (d : Datetime) : d.validB = true ↔
    (1 ≤ d.year ∧ d.year ≤ 9999 ∧ 1 ≤ d.month ∧ d.month ≤ 12 ∧ 1 ≤ d.day ∧
      d.day ≤ daysInMonth d.year d.month ∧ d.hour ≤ 23 ∧ d.minute ≤ 59 ∧
      d.second ≤ 59) := by
  unfold Datetime.validB
  simp [Bool.and_eq_true, decide_eq_true_eq]
  tauto

/-- Inversion of a successful datetime construction. -/
theorem mkDatetime_some (y mo d h mi s : Nat) (dt : Datetime)
    (hmk : mkDatetime y mo d h mi s = some dt) :
    dt = ⟨y, mo, d, h, mi, s⟩ ∧ dt.validB = true := by
  unfold mkDatetime at hmk
  by_cases hv : (⟨y, mo, d, h, mi, s⟩ : Datetime).validB = true
  · rw [if_pos hv] at hmk
    injection hmk with h1
    subst h1
    exact ⟨rfl, hv⟩
  · rw [if_neg hv] at hmk
    exact (Option.noConfusion hmk)

/-- The bounds of `daysInMonth` on real months. -/
theorem daysInMonth_bounds (y m : Nat) (h1 : 1 ≤ m) (h2 : m ≤ 12) :
    1 ≤ daysInMonth y m ∧ daysInMonth y m ≤ 31 := by
  interval_cases m <;> simp only [daysInMonth] <;> first
    | omega
    | (split <;> omega)

/-- One second before the first instant of month `m` is the last second of
month `m - 1`. -/
theorem minusOneSecond_month_start (y m : Nat) (hm : 2 ≤ m) :
    minusOneSecond ⟨y, m, 1, 0, 0, 0⟩ =
      ⟨y, m - 1, daysInMonth y (m - 1), 23, 59, 59⟩ := by
  unfold minusOneSecond
  have h1 : ¬ (0 : Nat) > 0 := by omega
  have h2 : ¬ (1 : Nat) > 1 := by omega
  have h3 : m > 1 := by omega
  simp [h1, h2, h3]

/-- Inversion of a successful month-bounds computation: the start is the
first second and the end the last second of the month of `time`, and the
month of `time` lies in 1..11 (December raises, claim C1). -/
theorem month_bounds_of_create (time st en : Datetime)
    (hst : get_start_of_month time = some st)
    (hen : get_end_of_month time = some en) :
    st = ⟨time.year, time.month, 1, 0, 0, 0⟩ ∧
    en = ⟨time.year, time.month, daysInMonth time.year time.month, 23, 59, 59⟩ ∧
    1 ≤ time.year ∧ time.year ≤ 9999 ∧ 1 ≤ time.month ∧ time.month ≤ 11 := by
  unfold get_start_of_month at hst
  obtain ⟨hst1, hst2⟩ := mkDatetime_some _ _ _ _ _ _ _ hst
  rw [hst1] at hst2
  rw [validB_iff] at hst2
  dsimp only at hst2
  unfold get_end_of_month at hen
  cases hmk : mkDatetime time.year (time.month + 1) 1 0 0 0 with
  | none => rw [hmk] at hen; exact (Option.noConfusion hen)
  | some x =>
    rw [hmk] at hen
    obtain ⟨hx1, hx2⟩ := mkDatetime_some _ _ _ _ _ _ _ hmk
    rw [hx1] at hx2
    rw [validB_iff] at hx2
    dsimp only at hx2
    rw [hx1] at hen
    rw [Option.map_some'] at hen
    rw [minusOneSecond_month_start time.year (time.month + 1) (by omega)] at hen
    simp only [Nat.add_sub_cancel] at hen
    injection hen with hen1
    refine ⟨hst1, hen1.symm, ?_, ?_, ?_, ?_⟩ <;> omega

/-- A month-aligned range covers a valid instant exactly when the instant
lies in its calendar month. -/
theorem coversB_month_range (r : TimeRange) (hr : isMonthRangeB r = true)
    (t : Datetime) (hv : t.validB = true) :
    coversB r t = true ↔
      (t.year = r.startsAt.year ∧ t.month = r.startsAt.month) := by
  unfold isMonthRangeB at hr
  simp only [Bool.and_eq_true, beq_iff_eq, decide_eq_true_eq] at hr
  obtain ⟨⟨⟨⟨⟨⟨⟨⟨hday, hhour⟩, hmin⟩, hsec⟩, hy1⟩, hy2⟩, hm1⟩, hm2⟩, hend⟩ := hr
  rw [validB_iff] at hv
  have hD := daysInMonth_bounds r.startsAt.year r.startsAt.month hm1 (by omega)
  unfold coversB
  rw [Bool.and_eq_true, dtLe_iff, dtLe_iff, hend]
  dsimp only
  constructor
  · rintro ⟨hle1, hle2⟩
    obtain ⟨he1, he2, he3, he4, he5, he6, he7, he8, he9⟩ := hv
    constructor <;> omega
  · rintro ⟨hye, hme⟩
    obtain ⟨he1, he2, he3, he4, he5, he6, he7, he8, he9⟩ := hv
    have hDt : daysInMonth t.year t.month =
        daysInMonth r.startsAt.year r.startsAt.month := by
      rw [hye, hme]
    rw [hDt] at he6
    constructor <;> omega

/-- Inversion of the Django `get`: success means the filter is a singleton. -/
theorem getUniqueWallet_eq_some (ws : List Wallet) (uid : Nat) (w : Wallet) :
    getUniqueWallet ws uid = some w ↔
      ws.filter (fun x => x.userId == uid) = [w] := by
  unfold getUniqueWallet
  cases hfl : ws.filter (fun x => x.userId == uid) with
  | nil => simp
  | cons a l =>
    cases l with
    | nil => simp
    | cons b l2 => simp

/-- Setting the amount of the unique wallet of a user keeps it the unique
wallet of that user, with the new amount. -/
theorem getUniqueWallet_set_amount (ws : List Wallet) (uid : Nat) (w : Wallet)
    (secs : Int) (hw : getUniqueWallet ws uid = some w) :
    getUniqueWallet (ws.map (fun x : Wallet =>
        if x.id == w.id then { x with amount := secs } else x)) uid =
      some { w with amount := secs } := by
  rw [getUniqueWallet_eq_some] at hw ⊢
  rw [List.filter_map]
  have hcong : (ws.filter ((fun x : Wallet => x.userId == uid) ∘ (fun x : Wallet =>
      if x.id == w.id then { x with amount := secs } else x))) =
      ws.filter (fun x => x.userId == uid) := by
    apply List.filter_congr
    intro x _
    by_cases hx : x.id = w.id
    · have hb : (x.id == w.id) = true := beq_iff_eq.mpr hx
      simp [Function.comp, hb]
    · have hb : (x.id == w.id) = false := by simp [hx]
      simp [Function.comp, hb]
  rw [hcong, hw]
  simp

/-- Inversion of a successful `get_or_create`: the row lists other than the
subscriptions are untouched and a subscription with the returned id,
owned by the user, is present. -/
theorem getOrCreateSubscription_ok (s : State) (userId subId : Nat) (s1 : State)
    (h : getOrCreateSubscription s userId = .ok (subId, s1)) :
    s1.timeRanges = s.timeRanges ∧ s1.wallets = s.wallets ∧
    ∃ sub ∈ s1.subscriptions, sub.id = subId ∧ sub.userId = userId := by
  unfold getOrCreateSubscription at h
  cases hfl : s.subscriptions.filter (fun sub => sub.userId == userId) with
  | nil =>
    rw [hfl] at h
    injection h with hp
    injection hp with hp1 hp2
    subst hp1
    subst hp2
    refine ⟨rfl, rfl, ⟨⟨s.nextSubId, userId⟩, ?_, rfl, rfl⟩⟩
    simp
  | cons a l =>
    cases l with
    | nil =>
      rw [hfl] at h
      injection h with hp
      injection hp with hp1 hp2
      subst hp2
      have ha : a ∈ s.subscriptions.filter (fun sub => sub.userId == userId) := by
        rw [hfl]; exact List.mem_singleton.mpr rfl
      rw [List.mem_filter] at ha
      exact ⟨rfl, rfl, ⟨a, ha.1, hp1, beq_iff_eq.mp ha.2⟩⟩
    | cons b l2 =>
      rw [hfl] at h
      exact Except.noConfusion h

/-- Inversion of a successful time-range creation: the fresh row is unpaid,
uncanceled, month-aligned on the month of `time`. -/
theorem isMonthRangeB_of_create (time : Datetime) (subId nid : Nat) (tr : TimeRange)
    (h : _create_subscription_time_range time subId nid = some tr) :
    isMonthRangeB tr = true ∧ tr.subscriptionId = subId ∧ tr.id = nid ∧
    tr.payedAt = none ∧ tr.paymentToken = none ∧ tr.canceledAt = none ∧
    tr.startsAt = ⟨time.year, time.month, 1, 0, 0, 0⟩ := by
  unfold _create_subscription_time_range at h
  cases hst : get_start_of_month time with
  | none => rw [hst] at h; exact Option.noConfusion h
  | some st =>
    cases hen : get_end_of_month time with
    | none => rw [hst, hen] at h; exact Option.noConfusion h
    | some en =>
      rw [hst, hen] at h
      injection h with h1
      obtain ⟨he1, he2, hy1, hy2, hm1, hm2⟩ := month_bounds_of_create time st en hst hen
      subst h1
      subst he1
      subst he2
      refine ⟨?_, rfl, rfl, rfl, rfl, rfl, rfl⟩
      unfold isMonthRangeB
      dsimp only
      simp [hy1, hy2, hm1, hm2]

/-- Effect of the `activateFinish` tail on success: the wallet of the user
holds the seconds of the month, the subscriptions are untouched and the
time ranges are those of the input state with the range `trId` marked
paid. -/
theorem activateFinish_ok (s2 : State) (trId userId : Nat) (tok : String)
    (time : Datetime) (s' : State)
    (h : activateFinish s2 trId userId tok time = .ok s') :
    (∃ secs, _get_number_of_seconds_in_month time = some secs ∧
      ∃ w', getUniqueWallet s'.wallets userId = some w' ∧ w'.amount = secs) ∧
    s'.subscriptions = s2.subscriptions ∧
    s'.timeRanges = s2.timeRanges.map (fun r : TimeRange =>
      if r.id == trId
      then { r with payedAt := some time, paymentToken := some tok }
      else r) := by
  unfold activateFinish at h
  cases hw : getUniqueWallet (markRangePayed s2 trId time tok).wallets userId with
  | none =>
    simp only [hw] at h
    exact Except.noConfusion h
  | some w =>
    simp only [hw] at h
    unfold generate_tokens_for_month_for_wallet at h
    cases hsec : _get_number_of_seconds_in_month time with
    | none => rw [hsec] at h; exact Except.noConfusion h
    | some secs =>
      rw [hsec] at h
      injection h with h1
      subst h1
      refine ⟨⟨secs, rfl, ?_⟩, rfl, rfl⟩
      have hw2 : getUniqueWallet s2.wallets userId = some w := hw
      exact ⟨{ w with amount := secs },
        getUniqueWallet_set_amount s2.wallets userId w secs hw2, rfl⟩

/-- A paid covering range of the subscription of a user makes the user
paid-and-active and yields the existential of claim C4. -/
theorem paidActive_of_marked (subs : List Subscription) (rs : List TimeRange)
    (userId : Nat) (time : Datetime) (tok : String)
    (sub : Subscription) (hsubmem : sub ∈ subs) (hsubuser : sub.userId = userId)
    (r : TimeRange) (hrmem : r ∈ rs) (hrsub : r.subscriptionId = sub.id)
    (hrcov : coversB r time = true) (hrpay : r.payedAt = some time)
    (hrtok : r.paymentToken = some tok) :
    userHasCurrentSubscription subs rs userId time = true ∧
    (∃ sub2 ∈ subs, sub2.userId = userId ∧
      ∃ r2 ∈ rs, r2.subscriptionId = sub2.id ∧ coversB r2 time = true ∧
        r2.payedAt = some time ∧ r2.paymentToken = some tok) := by
  constructor
  · unfold userHasCurrentSubscription
    rw [List.any_eq_true]
    refine ⟨sub, hsubmem, ?_⟩
    rw [Bool.and_eq_true]
    refine ⟨beq_iff_eq.mpr hsubuser, ?_⟩
    rw [List.any_eq_true]
    refine ⟨r, hrmem, ?_⟩
    rw [Bool.and_eq_true, Bool.and_eq_true]
    refine ⟨⟨beq_iff_eq.mpr hrsub, hrcov⟩, ?_⟩
    rw [hrpay]
    rfl
  · exact ⟨sub, hsubmem, hsubuser, r, hrmem, hrsub, hrcov, hrpay, hrtok⟩

/-- Claim C4: when `activate_subscription(u, token)` succeeds at an instant
`time` (with in-range fields, as every Python datetime has), afterwards the
subscription of `u` is paid and active at `time`: a period of it covers
`time` with `payed_at = time` and `payment_token = token`, and the wallet
of `u` holds exactly the seconds in the month of `time`. -/
theorem c4_activate_success (s : State) (userId : Nat) (tok : String)
    (time : Datetime) (s' : State) (hv : time.validB = true)
    (h : activate_subscription s userId tok time = .ok s') :
    userHasCurrentSubscription s'.subscriptions s'.timeRanges userId time = true ∧
    (∃ secs, _get_number_of_seconds_in_month time = some secs ∧
      ∃ w', getUniqueWallet s'.wallets userId = some w' ∧ w'.amount = secs) ∧
    (∃ sub2 ∈ s'.subscriptions, sub2.userId = userId ∧
      ∃ r2 ∈ s'.timeRanges, r2.subscriptionId = sub2.id ∧ coversB r2 time = true ∧
        r2.payedAt = some time ∧ r2.paymentToken = some tok) := by
  unfold activate_subscription at h
  by_cases htok : (tok == "") = true
  · rw [if_pos htok] at h
    exact Except.noConfusion h
  · rw [if_neg htok] at h
    cases hg : getOrCreateSubscription s userId with
    | error e =>
      rw [hg] at h
      exact Except.noConfusion h
    | ok p =>
      obtain ⟨subId, s1⟩ := p
      simp only [hg] at h
      obtain ⟨hTR, hW, sub, hsubmem, hsubid, hsubuser⟩ :=
        getOrCreateSubscription_ok s userId subId s1 hg
      by_cases hpay : (s1.timeRanges.any fun r =>
          r.subscriptionId == subId && coversB r time && r.payedAt.isSome) = true
      · rw [if_pos hpay] at h
        exact Except.noConfusion h
      · rw [if_neg hpay] at h
        cases hfind : s1.timeRanges.find? (fun r =>
            r.subscriptionId == subId && coversB r time && r.payedAt.isNone) with
        | some tr =>
          simp only [hfind] at h
          obtain ⟨hwall, hsubs, hranges⟩ := activateFinish_ok _ _ _ _ _ _ h
          have hpred := List.find?_some hfind
          have hmem := List.mem_of_find?_eq_some hfind
          rw [Bool.and_eq_true, Bool.and_eq_true] at hpred
          obtain ⟨⟨hpsub, hpcov⟩, hpnone⟩ := hpred
          have hmarked : ({ tr with payedAt := some time, paymentToken := some tok } :
              TimeRange) ∈ s'.timeRanges := by
            rw [hranges]
            have heq : ({ tr with payedAt := some time, paymentToken := some tok } :
                TimeRange) = (fun r : TimeRange => if r.id == tr.id
                  then { r with payedAt := some time, paymentToken := some tok }
                  else r) tr := by
              simp
            rw [heq]
            exact List.mem_map_of_mem _ hmem
          have hsubs1 : sub ∈ s'.subscriptions := by
            rw [hsubs]; exact hsubmem
          have hres := paidActive_of_marked s'.subscriptions s'.timeRanges userId
            time tok sub hsubs1 hsubuser
            ({ tr with payedAt := some time, paymentToken := some tok } : TimeRange)
            hmarked ((beq_iff_eq.mp hpsub).trans hsubid.symm) hpcov rfl rfl
          exact ⟨hres.1, hwall, hres.2⟩
        | none =>
          simp only [hfind] at h
          cases hcr : _create_subscription_time_range time subId s1.nextRangeId with
          | none =>
            rw [hcr] at h
            exact Except.noConfusion h
          | some tr =>
            simp only [hcr] at h
            obtain ⟨hwall, hsubs, hranges⟩ := activateFinish_ok _ _ _ _ _ _ h
            obtain ⟨hmr, htrsub, htrid, htrpay, htrtok, htrcan, htrstart⟩ :=
              isMonthRangeB_of_create time subId s1.nextRangeId tr hcr
            have hcov : coversB tr time = true := by
              rw [coversB_month_range tr hmr time hv, htrstart]
              exact ⟨rfl, rfl⟩
            have hmarked : ({ tr with payedAt := some time, paymentToken := some tok } :
                TimeRange) ∈ s'.timeRanges := by
              rw [hranges]
              have heq : ({ tr with payedAt := some time, paymentToken := some tok } :
                  TimeRange) = (fun r : TimeRange => if r.id == tr.id
                    then { r with payedAt := some time, paymentToken := some tok }
                    else r) tr := by
                simp
              rw [heq]
              refine List.mem_map_of_mem _ ?_
              exact List.mem_append_right _ (List.mem_singleton.mpr rfl)
            have hsubs1 : sub ∈ s'.subscriptions := by
              rw [hsubs]; exact hsubmem
            have hres := paidActive_of_marked s'.subscriptions s'.timeRanges userId
              time tok sub hsubs1 hsubuser
              ({ tr with payedAt := some time, paymentToken := some tok } : TimeRange)
              hmarked (htrsub.trans hsubid.symm) hcov rfl rfl
            exact ⟨hres.1, hwall, hres.2⟩

/-- Witness for claim C4: the concrete activation of user 1 with token tok
at `feb10` succeeds and leaves the user paid and active. -/
theorem c4_activate_success_witness :
    userHasCurrentSubscription activateDemoResult.subscriptions
      activateDemoResult.timeRanges 1 feb10 = true :=
  (c4_activate_success oneUserState 1 "tok" feb10 activateDemoResult
    (by decide) (by rfl)).1

/-- Counterexample for claim C9 as stated: for a user with no Subscription
row, `cancel_subscription` raises the Django DoesNotExist exception of
`Subscription.objects.get`, not the NotActive assertion the claim
announces for that case. -/
theorem c9_counterexample :
    cancel_subscription twoWalletState 7 jan20 = .error .doesNotExist ∧
    ¬ cancel_subscription twoWalletState 7 jan20 = .error .notActive := by
  decide

/-- Claim C9 (amended): for a user owning exactly one Subscription row,
`cancel_subscription` fails with the NotActive assertion exactly when no
paid period of that subscription covers `time`; on success it sets
`canceled_at = time` on the first such period and changes nothing else.
(A user with no Subscription row gets DoesNotExist instead, see the
counterexample.) -/
theorem c9_cancel_behavior (s : State) (userId : Nat) (time : Datetime)
    (sub : Subscription)
    (hsub : s.subscriptions.filter (fun x => x.userId == userId) = [sub]) :
    (cancel_subscription s userId time = .error .notActive ↔
      s.timeRanges.find? (fun r => r.subscriptionId == sub.id && coversB r time &&
        r.payedAt.isSome) = none) ∧
    (∀ tr, s.timeRanges.find? (fun r => r.subscriptionId == sub.id &&
        coversB r time && r.payedAt.isSome) = some tr →
      cancel_subscription s userId time =
        .ok { s with timeRanges := s.timeRanges.map (fun r : TimeRange =>
          if r.id == tr.id then { r with canceledAt := some time } else r) }) := by
  constructor
  · cases hfind : s.timeRanges.find? (fun r => r.subscriptionId == sub.id &&
        coversB r time && r.payedAt.isSome) with
    | none =>
      simp only [cancel_subscription, hsub, hfind]
    | some tr =>
      simp only [cancel_subscription, hsub, hfind]
      constructor
      · intro hc
        exact Except.noConfusion hc
      · intro hc
        exact Option.noConfusion hc
  · intro tr hfind
    simp only [cancel_subscription, hsub, hfind]

/-- Witness for claim C9: on `paidJanState` the cancellation of user 1 at
`jan20` succeeds and stamps `canceled_at` on the paid January period. -/
theorem c9_cancel_behavior_witness :
    cancel_subscription paidJanState 1 jan20 =
      .ok { paidJanState with timeRanges := paidJanState.timeRanges.map (fun r : TimeRange =>
          if r.id == 0 then { r with canceledAt := some jan20 } else r) } :=
  (c9_cancel_behavior paidJanState 1 jan20 ⟨0, 1⟩ (by decide)).2
    ⟨0, 0, ⟨2024, 1, 1, 0, 0, 0⟩, ⟨2024, 1, 31, 23, 59, 59⟩,
      some ⟨2024, 1, 10, 0, 0, 0⟩, some "tok", none⟩
    (by decide)

/-- The success shape of the issuance job once the seconds computation
succeeds. -/
theorem issue_ok_of_seconds (s : State) (t : Datetime) (secs : Int)
    (hsec : _get_number_of_seconds_in_month t = some secs) :
    generate_tokens_for_month s t = .ok { s with wallets := s.wallets.map (fun w : Wallet =>
      if userHasCurrentSubscription s.subscriptions s.timeRanges w.userId t
      then { w with amount := secs } else w) } := by
  simp only [generate_tokens_for_month, hsec]

/-- Claim C7 (amended): running the issuance job twice in sequence yields
the same wallet balances as running it once — unconditionally, since a
failing run (December, claim C1) changes nothing — and a successful run
sets the balance of exactly the wallets whose user has a paid period
covering `t` to the seconds in the month of `t`, touching nothing else. -/
theorem c7_issue_idempotent (s : State) (t : Datetime) :
    (runOp (runOp s (.issue t)) (.issue t)).wallets = (runOp s (.issue t)).wallets ∧
    (∀ s', generate_tokens_for_month s t = .ok s' →
      ∃ secs, _get_number_of_seconds_in_month t = some secs ∧
        s'.wallets = s.wallets.map (fun w : Wallet =>
          if userHasCurrentSubscription s.subscriptions s.timeRanges w.userId t
          then { w with amount := secs } else w) ∧
        s'.subscriptions = s.subscriptions ∧ s'.timeRanges = s.timeRanges ∧
        s'.transactions = s.transactions) := by
  constructor
  · cases hsec : _get_number_of_seconds_in_month t with
    | none =>
      have hrun : runOp s (.issue t) = s := by
        simp [runOp, applyOp, generate_tokens_for_month, hsec]
      rw [hrun, hrun]
    | some secs =>
      have hrun : runOp s (.issue t) = { s with wallets := s.wallets.map (fun w : Wallet =>
          if userHasCurrentSubscription s.subscriptions s.timeRanges w.userId t
          then { w with amount := secs } else w) } := by
        simp [runOp, applyOp, issue_ok_of_seconds s t secs hsec]
      have hrun2 : runOp { s with wallets := s.wallets.map (fun w : Wallet =>
            if userHasCurrentSubscription s.subscriptions s.timeRanges w.userId t
            then { w with amount := secs } else w) } (.issue t) =
          { s with wallets := (s.wallets.map (fun w : Wallet =>
            if userHasCurrentSubscription s.subscriptions s.timeRanges w.userId t
            then { w with amount := secs } else w)).map (fun w : Wallet =>
              if userHasCurrentSubscription s.subscriptions s.timeRanges w.userId t
              then { w with amount := secs } else w) } := by
        simp [runOp, applyOp, issue_ok_of_seconds { s with
          wallets := s.wallets.map (fun w : Wallet =>
            if userHasCurrentSubscription s.subscriptions s.timeRanges w.userId t
            then { w with amount := secs } else w) } t secs hsec]
      rw [hrun, hrun2]
      dsimp only
      rw [List.map_map]
      apply List.map_congr_left
      intro w _
      by_cases hc : userHasCurrentSubscription s.subscriptions s.timeRanges w.userId t = true
      · simp [Function.comp, hc]
      · simp [Function.comp, hc]
  · intro s' h
    cases hsec : _get_number_of_seconds_in_month t with
    | none =>
      simp only [generate_tokens_for_month, hsec] at h
      exact Except.noConfusion h
    | some secs =>
      rw [issue_ok_of_seconds s t secs hsec] at h
      injection h with h1
      subst h1
      exact ⟨secs, rfl, rfl, rfl, rfl, rfl⟩

/-- Witness for claim C7: on `paidJanState` the issuance at `jan20` fills
the wallet of user 1 with the 2678399 seconds of January 2024. -/
theorem c7_issue_idempotent_witness :
    issueDemoResult.wallets = paidJanState.wallets.map (fun w : Wallet =>
      if userHasCurrentSubscription paidJanState.subscriptions
        paidJanState.timeRanges w.userId jan20
      then { w with amount := 2678399 } else w) := by
  obtain ⟨secs, hs, hw, _⟩ :=
    (c7_issue_idempotent paidJanState jan20).2 issueDemoResult rfl
  have h27 : _get_number_of_seconds_in_month jan20 = some 2678399 := rfl
  rw [h27] at hs
  injection hs with he
  subst he
  exact hw

/-- Counterexample for claim C7 as stated: at a December instant a paid
active user exists, yet the job raises the ValueError of claim C1 and
sets no balance at all. -/
theorem c7_counterexample :
    userHasCurrentSubscription decemberPaidState.subscriptions
      decemberPaidState.timeRanges 1 dec15 = true ∧
    generate_tokens_for_month decemberPaidState dec15 = .error .valueError ∧
    (runOp decemberPaidState (.issue dec15)).wallets = decemberPaidState.wallets := by
  decide

/-- `dedupFirst` keeps exactly the members of the list. -/
theorem mem_dedupFirst (l : List Nat) (x : Nat) : x ∈ dedupFirst l ↔ x ∈ l := by
  induction l with
  | nil => simp [dedupFirst]
  | cons a as ih =>
    simp only [dedupFirst, List.mem_cons, List.mem_filter]
    constructor
    · rintro (h | ⟨h1, _⟩)
      · exact Or.inl h
      · exact Or.inr (ih.mp h1)
    · rintro (h | h)
      · exact Or.inl h
      · by_cases hx : x = a
        · exact Or.inl hx
        · refine Or.inr ⟨ih.mpr h, ?_⟩
          simp [hx]

/-- `dedupFirst` returns a list without duplicates. -/
theorem dedupFirst_nodup (l : List Nat) : (dedupFirst l).Nodup := by
  induction l with
  | nil => simp [dedupFirst]
  | cons a as ih =>
    rw [dedupFirst, List.nodup_cons]
    constructor
    · intro hmem
      rw [List.mem_filter] at hmem
      have h2 := hmem.2
      simp at h2
    · exact List.Nodup.filter _ ih

/-- Any property holding on the accumulator and on every list element is
carried to the result of the fold of `lastRangeStep`. -/
theorem foldl_lastRangeStep_prop (P : TimeRange → Prop) (l : List TimeRange)
    (acc : Option TimeRange)
    (hacc : ∀ x, acc = some x → P x) (hl : ∀ x ∈ l, P x) :
    ∀ r, l.foldl lastRangeStep acc = some r → P r := by
  induction l generalizing acc with
  | nil =>
    intro r h
    exact hacc r h
  | cons a as ih =>
    intro r h
    rw [List.foldl_cons] at h
    refine ih (lastRangeStep acc a) ?_ ?_ r h
    · intro x hx
      cases acc with
      | none =>
        simp only [lastRangeStep] at hx
        injection hx with he
        rw [← he]
        exact hl a (by simp)
      | some b =>
        simp only [lastRangeStep] at hx
        by_cases hlt : dtLt b.endsAt a.endsAt = true
        · rw [if_pos hlt] at hx
          injection hx with he
          rw [← he]
          exact hl a (by simp)
        · rw [if_neg hlt] at hx
          injection hx with he
          rw [← he]
          exact hacc b rfl
    · intro x hx
      exact hl x (by simp [hx])

/-- The last range of subscription `i` belongs to the list and to
subscription `i`. -/
theorem lastRangeFor_mem (rs : List TimeRange) (i : Nat) (r : TimeRange)
    (h : lastRangeFor rs i = some r) : r ∈ rs ∧ r.subscriptionId = i := by
  unfold lastRangeFor at h
  refine foldl_lastRangeStep_prop (fun x => x ∈ rs ∧ x.subscriptionId = i)
    _ none ?_ ?_ r h
  · intro x hx
    exact Option.noConfusion hx
  · intro x hx
    rw [List.mem_filter] at hx
    exact ⟨hx.1, beq_iff_eq.mp hx.2⟩

/-- The ids the rollover loop visits are exactly the subscriptions whose
last time range is not canceled. -/
theorem mem_rolloverIds (rs : List TimeRange) (i : Nat) :
    i ∈ rolloverIds rs ↔
      ∃ r, lastRangeFor rs i = some r ∧ r.canceledAt = none := by
  unfold rolloverIds
  rw [List.mem_filter]
  constructor
  · rintro ⟨hmem, hp⟩
    cases hl : lastRangeFor rs i with
    | none =>
      simp only [hl] at hp
      simp at hp
    | some r =>
      simp only [hl] at hp
      exact ⟨r, rfl, Option.isNone_iff_eq_none.mp hp⟩
  · rintro ⟨r, hl, hc⟩
    constructor
    · rw [mem_dedupFirst]
      have hm := lastRangeFor_mem rs i r hl
      exact List.mem_map.mpr ⟨r, hm.1, hm.2⟩
    · simp only [hl]
      simp [hc]

/-- The rollover loop visits each subscription id at most once. -/
theorem rolloverIds_nodup (rs : List TimeRange) : (rolloverIds rs).Nodup :=
  List.Nodup.filter _ (dedupFirst_nodup _)

/-- Every range created by the rollover loop is unpaid, uncanceled, spans
`[st, en]` and belongs to one of the visited subscriptions. -/
theorem buildRanges_mem (st en : Datetime) (ids : List Nat) (n : Nat) (r : TimeRange)
    (hr : r ∈ buildRanges n st en ids) :
    r.startsAt = st ∧ r.endsAt = en ∧ r.payedAt = none ∧ r.canceledAt = none ∧
      r.subscriptionId ∈ ids := by
  induction ids generalizing n with
  | nil => simp [buildRanges] at hr
  | cons a as ih =>
    simp only [buildRanges, List.mem_cons] at hr
    cases hr with
    | inl h =>
      subst h
      exact ⟨rfl, rfl, rfl, rfl, by simp⟩
    | inr h =>
      obtain ⟨h1, h2, h3, h4, h5⟩ := ih (n + 1) h
      exact ⟨h1, h2, h3, h4, by simp [h5]⟩

/-- With distinct ids, the rollover loop creates exactly one range per
visited subscription and none for any other. -/
theorem buildRanges_count (st en : Datetime) (ids : List Nat) (hnd : ids.Nodup)
    (n i : Nat) :
    ((buildRanges n st en ids).filter (fun r => r.subscriptionId == i)).length =
      if i ∈ ids then 1 else 0 := by
  induction ids generalizing n with
  | nil => simp [buildRanges]
  | cons a as ih =>
    obtain ⟨hna, hnd2⟩ := List.nodup_cons.mp hnd
    simp only [buildRanges, List.filter_cons]
    by_cases hai : a = i
    · subst hai
      rw [if_pos (by simp)]
      rw [List.length_cons, ih hnd2 (n + 1)]
      have hnotin : ¬ a ∈ as := hna
      rw [if_neg hnotin, if_pos (by simp)]
    · rw [if_neg (by simp [hai])]
      rw [ih hnd2 (n + 1)]
      by_cases hin : i ∈ as
      · rw [if_pos hin, if_pos (List.mem_cons_of_mem a hin)]
      · have hnotin2 : ¬ i ∈ a :: as := by
          rw [List.mem_cons]
          rintro (hc | hc)
          · exact hai hc.symm
          · exact hin hc
        rw [if_neg hin, if_neg hnotin2]

/-- Claim C8 (amended): the rollover fails with the already-rolled-over
assertion when some range covers the instant `now` (the code checks
coverage of the instant, not of any instant of its month); otherwise,
when the month bounds are constructible, it appends for every
subscription whose last range (greatest `ends_at`, first row on ties) is
not canceled exactly one unpaid range spanning the month of `now`, and
none for any other subscription; in December with at least one qualifying
subscription it raises the ValueError of claim C1 and writes nothing. -/
theorem c8_rollover_behavior (s : State) (time : Datetime) :
    (s.timeRanges.any (fun r => coversB r time) = true →
      generate_subscription_time_ranges_for_month s time =
        .error .alreadyRolledOver) ∧
    (s.timeRanges.any (fun r => coversB r time) = false →
      ∀ st en, get_start_of_month time = some st →
        get_end_of_month time = some en →
        generate_subscription_time_ranges_for_month s time =
          .ok { s with
            timeRanges := s.timeRanges ++
              buildRanges s.nextRangeId st en (rolloverIds s.timeRanges),
            nextRangeId := s.nextRangeId + (rolloverIds s.timeRanges).length } ∧
        (∀ i, ((buildRanges s.nextRangeId st en (rolloverIds s.timeRanges)).filter
            (fun r => r.subscriptionId == i)).length =
          if i ∈ rolloverIds s.timeRanges then 1 else 0)) ∧
    (∀ i, i ∈ rolloverIds s.timeRanges ↔
      ∃ r, lastRangeFor s.timeRanges i = some r ∧ r.canceledAt = none) ∧
    (s.timeRanges.any (fun r => coversB r time) = false →
      rolloverIds s.timeRanges ≠ [] → get_end_of_month time = none →
      generate_subscription_time_ranges_for_month s time = .error .valueError ∧
      runOp s (.rollover time) = s) := by
  refine ⟨?_, ?_, ?_, ?_⟩
  · intro hany
    simp only [generate_subscription_time_ranges_for_month, hany]
    rfl
  · intro hany st en hst hen
    constructor
    · simp only [generate_subscription_time_ranges_for_month, hany]
      cases hids : rolloverIds s.timeRanges with
      | nil =>
        simp [buildRanges]
      | cons a as =>
        simp only [hst, hen]
        rfl
    · intro i
      exact buildRanges_count st en (rolloverIds s.timeRanges)
        (rolloverIds_nodup s.timeRanges) s.nextRangeId i
  · intro i
    exact mem_rolloverIds s.timeRanges i
  · intro hany hne hen
    have herr : generate_subscription_time_ranges_for_month s time =
        .error .valueError := by
      simp only [generate_subscription_time_ranges_for_month, hany]
      cases hids : rolloverIds s.timeRanges with
      | nil => exact absurd hids hne
      | cons a as =>
        cases hst : get_start_of_month time with
        | none =>
          simp only [hst, hen]
          rfl
        | some st =>
          simp only [hst, hen]
          rfl
    refine ⟨herr, ?_⟩
    simp [runOp, applyOp, herr]

/-- Witness for claim C8: on the spec scenario state (subscription 0 paid
and not canceled in January 2024, subscription 1 paid and canceled), the
rollover at 2024-02-01 appends exactly one unpaid February range, for
subscription 0. -/
theorem c8_rollover_behavior_witness :
    generate_subscription_time_ranges_for_month rolloverDemoState feb1 =
      .ok { rolloverDemoState with
        timeRanges := rolloverDemoState.timeRanges ++
          buildRanges 2 ⟨2024, 2, 1, 0, 0, 0⟩ ⟨2024, 2, 29, 23, 59, 59⟩
            (rolloverIds rolloverDemoState.timeRanges),
        nextRangeId := 2 + (rolloverIds rolloverDemoState.timeRanges).length } :=
  (((c8_rollover_behavior rolloverDemoState feb1).2.1 (by decide)
    ⟨2024, 2, 1, 0, 0, 0⟩ ⟨2024, 2, 29, 23, 59, 59⟩ (by decide) (by decide))).1

/-- Counterexample for claim C8 as stated: at 2021-12-01 subscription 0
qualifies (its last range, November 2021, is not canceled) and no range
covers December, yet the rollover creates nothing: it raises the
ValueError of claim C1. -/
theorem c8_counterexample :
    rolloverIds novemberState.timeRanges = [0] ∧
    generate_subscription_time_ranges_for_month novemberState dec1 =
      .error .valueError ∧
    (runOp novemberState (.rollover dec1)).timeRanges =
      novemberState.timeRanges := by
  decide

/-- The recursive pairwise check of `noDupMonthsB` as a `Pairwise`. -/
theorem noDupMonthsB_iff (rs : List TimeRange) :
    noDupMonthsB rs = true ↔
      rs.Pairwise (fun r r' => sameSubSameMonth r r' = false) := by
  induction rs with
  | nil => simp [noDupMonthsB]
  | cons r rs ih =>
    simp [noDupMonthsB, List.pairwise_cons, ih, List.all_eq_true]

/-- The recursive pairwise check of `overlapFreeB` as a `Pairwise`. -/
theorem overlapFreeB_iff (rs : List TimeRange) :
    overlapFreeB rs = true ↔
      rs.Pairwise (fun r r' => sameSubOverlap r r' = false) := by
  induction rs with
  | nil => simp [overlapFreeB]
  | cons r rs ih =>
    simp [overlapFreeB, List.pairwise_cons, ih, List.all_eq_true]

/-- The invariant as a membership statement plus a `Pairwise`. -/
theorem rangesOkB_iff (rs : List TimeRange) :
    rangesOkB rs = true ↔
      ((∀ r ∈ rs, isMonthRangeB r = true) ∧
        rs.Pairwise (fun r r' => sameSubSameMonth r r' = false)) := by
  unfold rangesOkB
  rw [Bool.and_eq_true, List.all_eq_true, noDupMonthsB_iff]

/-- Alignment only reads the bounds of a range. -/
theorem isMonthRangeB_congr (a b : TimeRange) (hs : a.startsAt = b.startsAt)
    (he : a.endsAt = b.endsAt) : isMonthRangeB a = isMonthRangeB b := by
  unfold isMonthRangeB
  rw [hs, he]

/-- The month collision check only reads subscription and start. -/
theorem sameSubSameMonth_congr (a a' b b' : TimeRange)
    (h1 : a.subscriptionId = a'.subscriptionId) (h2 : a.startsAt = a'.startsAt)
    (h3 : b.subscriptionId = b'.subscriptionId) (h4 : b.startsAt = b'.startsAt) :
    sameSubSameMonth a b = sameSubSameMonth a' b' := by
  unfold sameSubSameMonth
  rw [h1, h2, h3, h4]

/-- For two month-aligned ranges, overlapping is the same as lying in the
same calendar month for the same subscription. -/
theorem sameSubOverlap_iff_month (r r' : TimeRange) (hr : isMonthRangeB r = true)
    (hr' : isMonthRangeB r' = true) :
    sameSubOverlap r r' = true ↔ sameSubSameMonth r r' = true := by
  unfold isMonthRangeB at hr hr'
  simp only [Bool.and_eq_true, beq_iff_eq, decide_eq_true_eq] at hr hr'
  obtain ⟨⟨⟨⟨⟨⟨⟨⟨hday, hhour⟩, hmin⟩, hsec⟩, hy1⟩, hy2⟩, hm1⟩, hm2⟩, hend⟩ := hr
  obtain ⟨⟨⟨⟨⟨⟨⟨⟨hday', hhour'⟩, hmin'⟩, hsec'⟩, hy1'⟩, hy2'⟩, hm1'⟩, hm2'⟩, hend'⟩ := hr'
  have hD := daysInMonth_bounds r.startsAt.year r.startsAt.month hm1 (by omega)
  have hD' := daysInMonth_bounds r'.startsAt.year r'.startsAt.month hm1' (by omega)
  unfold sameSubOverlap sameSubSameMonth
  rw [hend, hend']
  simp only [Bool.and_eq_true, beq_iff_eq, dtLe_iff]
  constructor
  · rintro ⟨⟨hsub, h1⟩, h2⟩
    refine ⟨⟨hsub, ?_⟩, ?_⟩ <;> omega
  · rintro ⟨⟨hsub, hyear⟩, hmonth⟩
    refine ⟨⟨hsub, ?_⟩, ?_⟩ <;> omega

/-- In a state satisfying the invariant, no subscription holds two
overlapping ranges. -/
theorem overlapFree_of_rangesOk (rs : List TimeRange)
    (h : rangesOkB rs = true) : overlapFreeB rs = true := by
  rw [rangesOkB_iff] at h
  obtain ⟨h1, h2⟩ := h
  rw [overlapFreeB_iff]
  refine h2.imp_of_mem ?_
  intro a b ha hb hab
  by_contra hc
  rw [Bool.not_eq_false] at hc
  rw [sameSubOverlap_iff_month a b (h1 a ha) (h1 b hb)] at hc
  rw [hab] at hc
  exact Bool.noConfusion hc

/-- A list whose predicate fails everywhere under `any`. -/
theorem any_eq_false_forall (l : List TimeRange) (p : TimeRange → Bool)
    (h : l.any p = false) : ∀ x ∈ l, p x = false := by
  intro x hx
  by_contra hc
  rw [Bool.not_eq_false] at hc
  have ht : l.any p = true := List.any_eq_true.mpr ⟨x, hx, hc⟩
  rw [h] at ht
  exact Bool.noConfusion ht

/-- A month-aligned range that misses a valid instant cannot lie in the
month of that instant, hence cannot collide with a range created for the
month of that instant. -/
theorem not_sameSubSameMonth_of_not_covers (r : TimeRange)
    (hr : isMonthRangeB r = true) (t : Datetime) (hv : t.validB = true)
    (hcov : coversB r t = false) (new : TimeRange)
    (hstart : new.startsAt = ⟨t.year, t.month, 1, 0, 0, 0⟩) :
    sameSubSameMonth r new = false := by
  by_contra hc
  rw [Bool.not_eq_false] at hc
  unfold sameSubSameMonth at hc
  rw [Bool.and_eq_true, Bool.and_eq_true] at hc
  obtain ⟨⟨_, hyear⟩, hmonth⟩ := hc
  rw [hstart] at hyear hmonth
  dsimp only at hyear hmonth
  have hcv := (coversB_month_range r hr t hv).mpr
    ⟨(beq_iff_eq.mp hyear).symm, (beq_iff_eq.mp hmonth).symm⟩
  rw [hcv] at hcov
  exact Bool.noConfusion hcov

/-- Alignment plus month uniqueness survives a field-preserving rewrite of
every row. -/
theorem rangesOk_map (rs : List TimeRange) (f : TimeRange → TimeRange)
    (hf : ∀ r, (f r).subscriptionId = r.subscriptionId ∧
      (f r).startsAt = r.startsAt ∧ (f r).endsAt = r.endsAt)
    (h : rangesOkB rs = true) : rangesOkB (rs.map f) = true := by
  rw [rangesOkB_iff] at h ⊢
  obtain ⟨h1, h2⟩ := h
  constructor
  · intro r hr
    rw [List.mem_map] at hr
    obtain ⟨x, hx, hfx⟩ := hr
    rw [← hfx, isMonthRangeB_congr (f x) x (hf x).2.1 (hf x).2.2]
    exact h1 x hx
  · rw [List.pairwise_map]
    refine h2.imp ?_
    intro a b hab
    rw [sameSubSameMonth_congr (f a) a (f b) b (hf a).1 (hf a).2.1 (hf b).1 (hf b).2.1]
    exact hab

/-- Alignment plus month uniqueness survives appending aligned rows that
collide neither with the old rows nor with each other. -/
theorem rangesOk_append (rs new : List TimeRange)
    (h : rangesOkB rs = true)
    (hnew1 : ∀ r ∈ new, isMonthRangeB r = true)
    (hnew2 : new.Pairwise (fun r r' => sameSubSameMonth r r' = false))
    (hcross : ∀ r ∈ rs, ∀ r' ∈ new, sameSubSameMonth r r' = false) :
    rangesOkB (rs ++ new) = true := by
  rw [rangesOkB_iff] at h ⊢
  obtain ⟨h1, h2⟩ := h
  constructor
  · intro r hr
    rw [List.mem_append] at hr
    cases hr with
    | inl hx => exact h1 r hx
    | inr hx => exact hnew1 r hx
  · rw [List.pairwise_append]
    exact ⟨h2, hnew2, hcross⟩

/-- Month-alignment of any range spanning a successfully computed month. -/
theorem isMonthRangeB_of_bounds (r : TimeRange) (time st en : Datetime)
    (hst : get_start_of_month time = some st)
    (hen : get_end_of_month time = some en)
    (h1 : r.startsAt = st) (h2 : r.endsAt = en) : isMonthRangeB r = true := by
  obtain ⟨he1, he2, hy1, hy2, hm1, hm2⟩ := month_bounds_of_create time st en hst hen
  subst he1
  subst he2
  unfold isMonthRangeB
  rw [h1, h2]
  dsimp only
  simp [hy1, hy2, hm1, hm2]

/-- The ranges created by one rollover loop carry pairwise distinct
subscription ids. -/
theorem buildRanges_pairwise_sub (st en : Datetime) (ids : List Nat)
    (hnd : ids.Nodup) (n : Nat) :
    (buildRanges n st en ids).Pairwise
      (fun r r' => r.subscriptionId ≠ r'.subscriptionId) := by
  induction ids generalizing n with
  | nil => simp [buildRanges]
  | cons a as ih =>
    obtain ⟨hna, hnd2⟩ := List.nodup_cons.mp hnd
    simp only [buildRanges]
    rw [List.pairwise_cons]
    constructor
    · intro r hr
      have h5 := (buildRanges_mem st en as (n + 1) r hr).2.2.2.2
      dsimp only
      intro hc
      rw [← hc] at h5
      exact hna h5
    · exact ih hnd2 (n + 1)

/-- A successful transfer does not touch the time ranges. -/
theorem transfer_tokens_ranges (s : State) (f t : Nat) (a : Int) (s' : State)
    (h : transfer_tokens s f t a = .ok s') : s'.timeRanges = s.timeRanges := by
  cases hf : getWalletById s.wallets f with
  | none =>
    simp only [transfer_tokens, hf] at h
    exact Except.noConfusion h
  | some fw =>
    cases ht : getWalletById s.wallets t with
    | none =>
      simp only [transfer_tokens, hf, ht] at h
      exact Except.noConfusion h
    | some tw =>
      simp only [transfer_tokens, hf, ht] at h
      by_cases hge : fw.amount ≥ a
      · rw [if_pos hge] at h
        injection h with h1
        rw [← h1]
      · rw [if_neg hge] at h
        exact Except.noConfusion h

/-- A successful issuance does not touch the time ranges. -/
theorem generate_tokens_ranges (s : State) (t : Datetime) (s' : State)
    (h : generate_tokens_for_month s t = .ok s') : s'.timeRanges = s.timeRanges := by
  cases hsec : _get_number_of_seconds_in_month t with
  | none =>
    simp only [generate_tokens_for_month, hsec] at h
    exact Except.noConfusion h
  | some secs =>
    rw [issue_ok_of_seconds s t secs hsec] at h
    injection h with h1
    rw [← h1]

/-- A successful cancellation only stamps `canceled_at` on one row. -/
theorem cancel_ranges (s : State) (u : Nat) (t : Datetime) (s' : State)
    (h : cancel_subscription s u t = .ok s') :
    ∃ trId, s'.timeRanges = s.timeRanges.map (fun r : TimeRange =>
      if r.id == trId then { r with canceledAt := some t } else r) := by
  cases hfl : s.subscriptions.filter (fun sub => sub.userId == u) with
  | nil =>
    simp only [cancel_subscription, hfl] at h
    exact Except.noConfusion h
  | cons sub rest =>
    cases rest with
    | nil =>
      cases hfind : s.timeRanges.find? (fun r =>
          r.subscriptionId == sub.id && coversB r t && r.payedAt.isSome) with
      | none =>
        simp only [cancel_subscription, hfl, hfind] at h
        exact Except.noConfusion h
      | some tr =>
        simp only [cancel_subscription, hfl, hfind] at h
        injection h with h1
        exact ⟨tr.id, by rw [← h1]⟩
    | cons sub2 rest2 =>
      simp only [cancel_subscription, hfl] at h
      exact Except.noConfusion h

/-- A successful activation preserves the invariant. -/
theorem rangesOk_activate (s : State) (u : Nat) (tok : String) (time : Datetime)
    (s' : State) (hv : time.validB = true)
    (hInv : rangesOkB s.timeRanges = true)
    (h : activate_subscription s u tok time = .ok s') :
    rangesOkB s'.timeRanges = true := by
  unfold activate_subscription at h
  by_cases htok : (tok == "") = true
  · rw [if_pos htok] at h
    exact Except.noConfusion h
  · rw [if_neg htok] at h
    cases hg : getOrCreateSubscription s u with
    | error e =>
      rw [hg] at h
      exact Except.noConfusion h
    | ok p =>
      obtain ⟨subId, s1⟩ := p
      simp only [hg] at h
      obtain ⟨hTR, hW, _⟩ := getOrCreateSubscription_ok s u subId s1 hg
      by_cases hpay : (s1.timeRanges.any fun r =>
          r.subscriptionId == subId && coversB r time && r.payedAt.isSome) = true
      · rw [if_pos hpay] at h
        exact Except.noConfusion h
      · rw [if_neg hpay] at h
        cases hfind : s1.timeRanges.find? (fun r =>
            r.subscriptionId == subId && coversB r time && r.payedAt.isNone) with
        | some tr =>
          simp only [hfind] at h
          obtain ⟨_, _, hranges⟩ := activateFinish_ok _ _ _ _ _ _ h
          rw [hranges, hTR]
          apply rangesOk_map _ _ ?_ hInv
          intro r
          by_cases hid : (r.id == tr.id) = true
          · rw [if_pos hid]
            exact ⟨rfl, rfl, rfl⟩
          · rw [if_neg hid]
            exact ⟨rfl, rfl, rfl⟩
        | none =>
          simp only [hfind] at h
          cases hcr : _create_subscription_time_range time subId s1.nextRangeId with
          | none =>
            rw [hcr] at h
            exact Except.noConfusion h
          | some tr =>
            simp only [hcr] at h
            obtain ⟨_, _, hranges⟩ := activateFinish_ok _ _ _ _ _ _ h
            rw [hranges]
            apply rangesOk_map _ _ ?_ ?_
            · intro r
              by_cases hid : (r.id == tr.id) = true
              · rw [if_pos hid]
                exact ⟨rfl, rfl, rfl⟩
              · rw [if_neg hid]
                exact ⟨rfl, rfl, rfl⟩
            · show rangesOkB (s1.timeRanges ++ [tr]) = true
              apply rangesOk_append
              · rw [hTR]
                exact hInv
              · intro r hr
                rw [List.mem_singleton] at hr
                subst hr
                exact (isMonthRangeB_of_create time subId s1.nextRangeId r hcr).1
              · simp
              · intro r hrmem r' hr'
                rw [List.mem_singleton] at hr'
                subst hr'
                by_cases hs : (r.subscriptionId == subId) = true
                · have hcov : coversB r time = false := by
                    by_contra hcc
                    rw [Bool.not_eq_false] at hcc
                    cases hpa : r.payedAt with
                    | some pt =>
                      have hsome : r.payedAt.isSome = true := by
                        rw [hpa]
                        rfl
                      have hat : (s1.timeRanges.any fun x =>
                          x.subscriptionId == subId && coversB x time &&
                            x.payedAt.isSome) = true := by
                        refine List.any_eq_true.mpr ⟨r, hrmem, ?_⟩
                        rw [Bool.and_eq_true, Bool.and_eq_true]
                        exact ⟨⟨hs, hcc⟩, hsome⟩
                      exact hpay hat
                    | none =>
                      have hnone : r.payedAt.isNone = true := by
                        rw [hpa]
                        rfl
                      have hnot := List.find?_eq_none.mp hfind r hrmem
                      apply hnot
                      rw [Bool.and_eq_true, Bool.and_eq_true]
                      exact ⟨⟨hs, hcc⟩, hnone⟩
                  have hal : isMonthRangeB r = true := by
                    have hx := (rangesOkB_iff s.timeRanges).mp hInv
                    refine hx.1 r ?_
                    rw [← hTR]
                    exact hrmem
                  exact not_sameSubSameMonth_of_not_covers r hal time hv hcov r'
                    (isMonthRangeB_of_create time subId s1.nextRangeId r' hcr).2.2.2.2.2.2
                · have htr := (isMonthRangeB_of_create time subId s1.nextRangeId
                    r' hcr).2.1
                  have hs' : (r.subscriptionId == subId) = false := by
                    rw [← Bool.not_eq_true]
                    exact hs
                  unfold sameSubSameMonth
                  rw [htr, hs']
                  rfl

/-- A successful rollover preserves the invariant. -/
theorem rangesOk_rollover (s : State) (time : Datetime) (s' : State)
    (hv : time.validB = true) (hInv : rangesOkB s.timeRanges = true)
    (h : generate_subscription_time_ranges_for_month s time = .ok s') :
    rangesOkB s'.timeRanges = true := by
  unfold generate_subscription_time_ranges_for_month at h
  by_cases hany : (s.timeRanges.any fun r => coversB r time) = true
  · rw [if_pos hany] at h
    exact Except.noConfusion h
  · rw [if_neg hany] at h
    have hanyf : (s.timeRanges.any fun r => coversB r time) = false := by
      rw [← Bool.not_eq_true]
      exact hany
    cases hids : rolloverIds s.timeRanges with
    | nil =>
      simp only [hids] at h
      injection h with h1
      rw [← h1]
      exact hInv
    | cons a as =>
      simp only [hids] at h
      cases hst : get_start_of_month time with
      | none =>
        cases hen : get_end_of_month time with
        | none =>
          simp only [hst, hen] at h
          exact Except.noConfusion h
        | some en =>
          simp only [hst, hen] at h
          exact Except.noConfusion h
      | some st =>
        cases hen : get_end_of_month time with
        | none =>
          simp only [hst, hen] at h
          exact Except.noConfusion h
        | some en =>
          simp only [hst, hen] at h
          injection h with h1
          rw [← h1]
          show rangesOkB (s.timeRanges ++
            buildRanges s.nextRangeId st en (a :: as)) = true
          apply rangesOk_append _ _ hInv
          · intro r hr
            obtain ⟨hb1, hb2, _, _, _⟩ :=
              buildRanges_mem st en (a :: as) s.nextRangeId r hr
            exact isMonthRangeB_of_bounds r time st en hst hen hb1 hb2
          · have hnd : (a :: as).Nodup := by
              rw [← hids]
              exact rolloverIds_nodup s.timeRanges
            refine (buildRanges_pairwise_sub st en (a :: as) hnd s.nextRangeId).imp ?_
            intro x y hxy
            have hbe : (x.subscriptionId == y.subscriptionId) = false := by
              rw [← Bool.not_eq_true]
              intro hc
              exact hxy (beq_iff_eq.mp hc)
            unfold sameSubSameMonth
            rw [hbe]
            rfl
          · intro r hrmem r' hr'
            obtain ⟨hb1, _, _, _, _⟩ :=
              buildRanges_mem st en (a :: as) s.nextRangeId r' hr'
            have hcov : coversB r time = false :=
              any_eq_false_forall _ _ hanyf r hrmem
            have hal : isMonthRangeB r = true :=
              ((rangesOkB_iff s.timeRanges).mp hInv).1 r hrmem
            have hstm := (month_bounds_of_create time st en hst hen).1
            refine not_sameSubSameMonth_of_not_covers r hal time hv hcov r' ?_
            rw [hb1, hstm]

/-- Every operation invoked with a real datetime preserves the invariant. -/
theorem rangesOk_runOp (s : State) (op : Op)
    (hInv : rangesOkB s.timeRanges = true) (hv : op.timeValidB = true) :
    rangesOkB (runOp s op).timeRanges = true := by
  unfold runOp
  cases happ : applyOp s op with
  | error e => exact hInv
  | ok s' =>
    cases op with
    | activate u tok t => exact rangesOk_activate s u tok t s' hv hInv happ
    | cancel u t =>
      obtain ⟨trId, hr⟩ := cancel_ranges s u t s' happ
      rw [hr]
      apply rangesOk_map _ _ ?_ hInv
      intro r
      by_cases hid : (r.id == trId) = true
      · rw [if_pos hid]
        exact ⟨rfl, rfl, rfl⟩
      · rw [if_neg hid]
        exact ⟨rfl, rfl, rfl⟩
    | rollover t => exact rangesOk_rollover s t s' hv hInv happ
    | issue t =>
      rw [generate_tokens_ranges s t s' happ]
      exact hInv
    | transfer f t a =>
      rw [transfer_tokens_ranges s f t a s' happ]
      exact hInv

/-- The invariant holds in every reachable state. -/
theorem rangesOk_runOps (s : State) (ops : List Op)
    (hInv : rangesOkB s.timeRanges = true)
    (hops : ∀ op ∈ ops, op.timeValidB = true) :
    rangesOkB (runOps s ops).timeRanges = true := by
  induction ops generalizing s with
  | nil => exact hInv
  | cons op ops ih =>
    rw [runOps]
    refine ih (runOp s op) (rangesOk_runOp s op hInv (hops op (by simp))) ?_
    intro o ho
    exact hops o (by simp [ho])

/-- Claim C3 (amended): from any initial state whose billing periods are
all month-aligned and pairwise month-distinct per subscription — the empty
state in particular — every state reachable by activate, cancel, rollover,
issuance and transfer (invoked with real datetimes) keeps every
subscription free of two overlapping periods. -/
theorem c3_no_overlap_invariant (s : State) (ops : List Op)
    (hInv : rangesOkB s.timeRanges = true)
    (hops : ∀ op ∈ ops, op.timeValidB = true) :
    overlapFreeB (runOps s ops).timeRanges = true :=
  overlapFree_of_rangesOk _ (rangesOk_runOps s ops hInv hops)

/-- Witness for claim C3: from the month-aligned `oneUserState`, the
concrete activation at `feb10` leaves the timeline overlap-free. -/
theorem c3_no_overlap_invariant_witness :
    overlapFreeB (runOps oneUserState [.activate 1 "tok" feb10]).timeRanges = true :=
  c3_no_overlap_invariant oneUserState [.activate 1 "tok" feb10]
    (by decide) (by decide)

/-- Counterexample for claim C3 as stated: the claim quantifies over every
overlap-free initial state, but from an overlap-free state holding a
hand-seeded mid-month period (2024-01-10 .. 2024-01-20), an activation at
2024-01-25 creates a full-January period of the same subscription that
overlaps the seeded one. -/
theorem c3_counterexample :
    overlapFreeB midJanState.timeRanges = true ∧
    Op.timeValidB (.activate 1 "tok" jan25) = true ∧
    overlapFreeB (runOps midJanState [.activate 1 "tok" jan25]).timeRanges = false := by
  decide
